import Mathlib

/-! # Account service of `src/app/services/user.js`

A shallow embedding of the user service: the Mongo collection is a list of
documents, `User.findOne(q).exec()` returns the first document matching `q`,
`doc.save()` on a loaded document rewrites the stored document with the same
`_id`, and a promise is an outcome that is settled at most once.

The Mongoose model `../models/user`, the configuration `../../config` and the
libraries `crypto` and `multer` are not part of the service file; what the
service calls on them is taken as a parameter (`UserModel`, `Env`,
`UploadResult`).
-/

namespace UserService

/-! ## Data model -/

/-- The `avatar` sub-document, `{ url: ... }`. -/
structure Avatar where
  url : Option String
deriving DecidableEq, Repr

/-- A document of the `User` collection. The service reads and writes `_id`,
`email`, `password`, `token` and `avatar.url`; the expiry of the login token and
the reset token with its expiry are the fields the model's methods keep
(spec §3: `tokenExpiry`, `resetToken` / `resetTokenExpiry`). A JavaScript `null`
is `none`. -/
structure User where
  _id : Nat
  email : String
  password : Option String
  token : Option String
  tokenExpiry : Nat
  resetPasswordToken : Option String
  resetPasswordExpires : Nat
  avatar : Avatar
deriving DecidableEq, Repr

/-- The collection, in natural order. -/
abbrev Store := List User

/-- What a promise is rejected with: a thrown `{status, message}` object, the
`TypeError` of reading or writing the property `property` of `null` (its message
is the engine's), or any other value (a plain string, the uploader's error). -/
inductive Failure where
  | status (code : Nat) (message : String)
  | typeError (property : String)
  | other (message : String)
deriving DecidableEq, Repr

/-- A settled promise. -/
inductive Outcome (α : Type) where
  | resolved (value : α)
  | rejected (error : Failure)
deriving DecidableEq, Repr

/-- A promise built with `new Promise(function(resolve, reject) ...)`: pending
(`none`) or settled. -/
abbrev Promise (α : Type) := Option (Outcome α)

/-- Calling `resolve` or `reject`: only the first call settles the promise. -/
def Promise.settle {α : Type} (p : Promise α) (o : Outcome α) : Promise α :=
  match p with
  | none => some o
  | some settled => some settled

/-! ## The collection -/

/-- The query `User.findOne({ _id: id }).exec()`. -/
def findById (store : Store) (id : Nat) : Option User :=
  store.find? (fun u => decide (u._id = id))

/-- The query `User.findOne({ email: email }).exec()`. -/
def findByEmail (store : Store) (email : String) : Option User :=
  store.find? (fun u => decide (u.email = email))

/-- The query `User.findOne({ token: token }).exec()`; a `null` token matches the
documents whose token is `null`. -/
def findByToken (store : Store) (token : Option String) : Option User :=
  store.find? (fun u => decide (u.token = token))

/-- The call `doc.save()` on a document loaded from the collection: the stored document
with the same `_id` is rewritten. -/
def save (doc : User) : Store → Store
  | [] => []
  | u :: rest => if u._id = doc._id then doc :: rest else u :: save doc rest

/-- Modelled from the spec: the `_id` of a document built with `new User(...)`
comes from the driver, which is not in the service file; spec §3 has it
"assigned by the store on creation", unique: one more than the largest id in
the collection. -/
def newId (store : Store) : Nat :=
  (store.map (fun u => u._id)).foldr max 0 + 1

/-- The call `doc.save()` on a document built with `new User(...)`: it is added to the
collection. -/
def insert (doc : User) (store : Store) : Store :=
  store ++ [doc]

/-! ## The parts outside the service file -/

/-- The methods of the model `../models/user` that the service calls and whose
code is not in the service file. `newToken` and `newResetToken` are the values
`setToken()` and `generateResetPasswordToken()` draw (token and expiry); time
and randomness are inside these functions. -/
structure UserModel where
  comparePassword : User → String → Bool
  isTokenExpired : User → Bool
  validateResetPasswordToken : User → String → Bool
  newToken : User → String × Nat
  newResetToken : User → String × Nat

/-- Modelled from the spec: `setToken()` of `../models/user`, which "generates
a new opaque token and expiry" on the document and touches nothing else. -/
def UserModel.setToken (m : UserModel) (u : User) : User :=
  { u with token := some (m.newToken u).1, tokenExpiry := (m.newToken u).2 }

/-- Modelled from the spec: `generateResetPasswordToken()` of `../models/user`,
which "generates a reset token + expiry" on the document and returns the
token. -/
def UserModel.generateResetPasswordToken (m : UserModel) (u : User) : User × String :=
  ({ u with resetPasswordToken := some (m.newResetToken u).1,
            resetPasswordExpires := (m.newResetToken u).2 }, (m.newResetToken u).1)

/-- The module `../../config`. -/
structure Config where
  host : String
  port : String
  imagePath : String
  imageWebPath : String

/-- The libraries and the configuration: the hex SHA-256 digest of `crypto`, the
string a document id converts to in a concatenation, and the configuration. -/
structure Env where
  sha256hex : String → String
  idString : Nat → String
  config : Config

/-! ## The service -/

/-- The operation `getUserByToken(token)`. -/
def getUserByToken (store : Store) (token : Option String) : Option User :=
  findByToken store token

/-- The operation `logout(userId)`: on a missing document `user.token = null` throws. -/
def logout (store : Store) (userId : Nat) : Outcome User × Store :=
  match findById store userId with
  | none => (.rejected (.typeError "token"), store)
  | some user =>
    let user1 := { user with token := none }
    (.resolved user1, save user1 store)

/-- The operation `login(email, password)`. -/
def login (m : UserModel) (store : Store) (email password : String) : Outcome User × Store :=
  match findByEmail store email with
  | none => (.rejected (.status 422 "User doesn't exist"), store)
  | some aUser =>
    if m.comparePassword aUser password then
      let aUser1 := m.setToken aUser
      (.resolved aUser1, save aUser1 store)
    else
      (.rejected (.status 401 "Incorrect credentials"), store)

/-- The operation `tokenLogin(token)`. -/
def tokenLogin (m : UserModel) (store : Store) (token : Option String) : Outcome User × Store :=
  match findByToken store token with
  | none => (.rejected (.status 401 "Cannot log in with incorrect token"), store)
  | some aUser =>
    if m.isTokenExpired aUser then
      (.rejected (.status 401 "Login token has expired"), store)
    else
      let aUser1 := m.setToken aUser
      (.resolved aUser1, save aUser1 store)

/-- The document `new User({ email: email, password: passwordHash, avatar: { url:
null } })`: the fields not given are unset. -/
def newUser (store : Store) (email passwordHash : String) : User :=
  { _id := newId store, email := email, password := some passwordHash,
    token := none, tokenExpiry := 0,
    resetPasswordToken := none, resetPasswordExpires := 0,
    avatar := { url := none } }

/-- The operation `create(email, password)`: the new document carries the digest
of the password and an empty avatar, gets a token and is stored; the value
handed back has its password set to `null` after the save. -/
def create (m : UserModel) (env : Env) (store : Store) (email password : String) :
    Outcome User × Store :=
  match findByEmail store email with
  | some _ => (.rejected (.status 422 "User already exists"), store)
  | none =>
    let passwordHash := env.sha256hex password
    let newUser1 := m.setToken (newUser store email passwordHash)
    (.resolved { newUser1 with password := none }, insert newUser1 store)

/-- The operation `updatePassword(user, currentPassword, newPassword)`: on a
missing document `aUser.comparePassword` throws. -/
def updatePassword (m : UserModel) (env : Env) (store : Store) (user : User)
    (currentPassword newPassword : String) : Outcome User × Store :=
  match findById store user._id with
  | none => (.rejected (.typeError "comparePassword"), store)
  | some aUser =>
    if m.comparePassword aUser currentPassword then
      let aUser1 := { aUser with password := some (env.sha256hex newPassword) }
      (.resolved aUser1, save aUser1 store)
    else
      (.rejected (.status 422 "Password is incorrect"), store)

/-- The promise under construction and the collection, while the body of a
`new Promise(...)` runs. -/
structure Exec (α : Type) where
  promise : Promise α
  store : Store
deriving DecidableEq

/-- The call `resolve(value)`. -/
def Exec.resolve {α : Type} (s : Exec α) (value : α) : Exec α :=
  { s with promise := s.promise.settle (.resolved value) }

/-- The call `reject(error)`. -/
def Exec.reject {α : Type} (s : Exec α) (error : Failure) : Exec α :=
  { s with promise := s.promise.settle (.rejected error) }

/-- The `.then` callback of `resetPassword`, with what it throws. On a missing
document it rejects and does not return: the next statement reads
`aUser.validateResetPasswordToken` on `null` and throws. -/
def resetPasswordThen (m : UserModel) (env : Env) (token newPassword : String)
    (aUser : Option User) (s : Exec String) : Exec String × Option Failure :=
  match aUser with
  | none =>
    let s1 := s.reject (.status 422 "The email you entered does not exist in the system")
    (s1, some (.typeError "validateResetPasswordToken"))
  | some u =>
    if m.validateResetPasswordToken u token then
      let u1 := { u with password := some (env.sha256hex newPassword) }
      let s1 : Exec String := { s with store := save u1 s.store }
      (s1.resolve "Your password has been reset", none)
    else
      (s.reject (.status 422 "Reset token is invalid"), none)

/-- The operation `resetPassword(token, email, newPassword)`: the `.then`
callback, then `.catch(function(error) { reject(error); })` on what it threw. -/
def resetPassword (m : UserModel) (env : Env) (store : Store) (token email newPassword : String) :
    Exec String :=
  let s0 : Exec String := { promise := none, store := store }
  match resetPasswordThen m env token newPassword (findByEmail store email) s0 with
  | (s1, none) => s1
  | (s1, some error) => s1.reject error

/-- The operation `forgotPassword(enteredEmail)`: the message ends with the
token. -/
def forgotPassword (m : UserModel) (store : Store) (enteredEmail : String) : Exec String :=
  let s0 : Exec String := { promise := none, store := store }
  match findByEmail store enteredEmail with
  | some aUser =>
    let (aUser1, token) := m.generateResetPasswordToken aUser
    let s1 : Exec String := { s0 with store := save aUser1 s0.store }
    s1.resolve ("An email has been sent with a reset link to your email address." ++ token)
  | none =>
    s0.reject (.status 422 "The email you entered does not exist in the system")

/-! ### Avatar upload -/

/-- The JavaScript `s.split('.')` on the characters of `s`. -/
def splitDot : List Char → List (List Char)
  | [] => [[]]
  | c :: cs =>
    if c = '.' then [] :: splitDot cs
    else
      match splitDot cs with
      | [] => [[c]]
      | piece :: pieces => (c :: piece) :: pieces

/-- The expression `name.split('.')[name.split('.').length - 1]`. -/
def lastSegment (name : String) : String :=
  String.mk ((splitDot name.data).getLastD [])

/-- The name the `filename` callback of the disk storage computes:
`req._user._id + '.' + ` the last segment of `file.originalname`. -/
def storedFileName (env : Env) (userId : Nat) (originalname : String) : String :=
  env.idString userId ++ "." ++ lastSegment originalname

/-- What `upload(req, res, callback)` of `multer` did: the original name of the
file the storage was asked to name (none when no file reached it) and the error
handed to the callback (none on success). -/
structure UploadResult where
  originalname : Option String
  err : Option Failure

/-- The variable `fileName` when the callback runs: `null` until the `filename`
callback of the storage has run. -/
def UploadResult.fileName (env : Env) (userId : Nat) (r : UploadResult) : Option String :=
  r.originalname.map (storedFileName env userId)

/-- The string a `null` or string value becomes in a concatenation. -/
def jsString : Option String → String
  | none => "null"
  | some s => s

/-- The avatar url `config.host + ':' + config.port + config.imageWebPath + fileName`. -/
def avatarUrl (env : Env) (fileName : Option String) : String :=
  env.config.host ++ ":" ++ env.config.port ++ env.config.imageWebPath ++ jsString fileName

/-- The operation `updateAvatar(req, res)` for `req._user._id = userId`: the
callback of `upload` rejects on an error and does not return, then looks the
user up. -/
def updateAvatar (env : Env) (store : Store) (userId : Nat) (r : UploadResult) : Exec User :=
  let s0 : Exec User := { promise := none, store := store }
  let s1 : Exec User :=
    match r.err with
    | some err => s0.reject err
    | none => s0
  match findById s1.store userId with
  | some aUser =>
    let aUser1 : User := { aUser with avatar := { url := some (avatarUrl env (r.fileName env userId)) } }
    let s2 : Exec User := { s1 with store := save aUser1 s1.store }
    s2.resolve aUser1
  | none => s1.reject (.other "Can't find user")

/-- An operation's promise was fulfilled. -/
def Outcome.succeeded {α : Type} : Outcome α → Bool
  | .resolved _ => true
  | .rejected _ => false

/-- The `_id` index of the collection: no two documents share an `_id`. -/
def UniqueIds (store : Store) : Prop :=
  store.Pairwise (fun a b => a._id ≠ b._id)

instance (store : Store) : Decidable (UniqueIds store) := by
  unfold UniqueIds; infer_instance

/-- Live login tokens are distinct: two documents share a token only when it
is `null`. -/
def DistinctTokens (store : Store) : Prop :=
  store.Pairwise (fun a b => a.token = b.token → a.token = none)

instance (store : Store) : Decidable (DistinctTokens store) := by
  unfold DistinctTokens; infer_instance

/-! ## Sample parameters

Concrete values of the parameters, on which statements are evaluated. -/

/-- Modelled from the spec: the methods of `../models/user` as the spec words
them, at the time `now`: the password check compares the stored hash with the
digest of the password, a login token is expired when the "current time ≥
`tokenExpiry`", and the reset token check is "comparing token value and
expiry". New tokens are named after the time and the document. -/
def sampleModel (sha256hex : String → String) (now : Nat) : UserModel :=
  { comparePassword := fun u p => decide (u.password = some (sha256hex p)),
    isTokenExpired := fun u => decide (u.tokenExpiry ≤ now),
    validateResetPasswordToken := fun u t =>
      decide (u.resetPasswordToken = some t) && decide (now < u.resetPasswordExpires),
    newToken := fun u => ("tok-" ++ toString u._id ++ "-" ++ toString now, now + 3600),
    newResetToken := fun u => ("reset-" ++ toString u._id ++ "-" ++ toString now, now + 600) }

/-- A stand-in for the digest, which keeps the plaintext readable. -/
def sampleDigest (p : String) : String := "sha256:" ++ p

/-- A sample environment. -/
def sampleEnv : Env :=
  { sha256hex := sampleDigest,
    idString := fun n => toString n,
    config := { host := "http://localhost", port := "3000",
                imagePath := "./public/img", imageWebPath := "/img/" } }

/-- A sample account: password `pw1`, logged in with token `T1` until time 500,
holding the reset token `R1` until time 300. -/
def alice : User :=
  { _id := 1, email := "a@x.com", password := some (sampleDigest "pw1"),
    token := some "T1", tokenExpiry := 500,
    resetPasswordToken := some "R1", resetPasswordExpires := 300,
    avatar := { url := none } }

/-- A second sample account, holding the same login token `T1` as `alice`. -/
def bob : User :=
  { _id := 2, email := "b@x.com", password := some (sampleDigest "pw2"),
    token := some "T1", tokenExpiry := 500,
    resetPasswordToken := none, resetPasswordExpires := 0,
    avatar := { url := none } }

/-- The store the service builds from the empty collection at time 10 with
`create("a@x.com", "pw1")` then `create("b@x.com", "pw2")`: accounts 1 and 2,
holding the tokens `tok-1-10` and `tok-2-10`. -/
def twoAccounts : Store :=
  (create (sampleModel sampleDigest 10) sampleEnv
    (create (sampleModel sampleDigest 10) sampleEnv [] "a@x.com" "pw1").2 "b@x.com" "pw2").2

/-- The account 1 of `twoAccounts`, as `create` stored it. -/
def account1 : User :=
  { _id := 1, email := "a@x.com", password := some (sampleDigest "pw1"),
    token := some "tok-1-10", tokenExpiry := 3610,
    resetPasswordToken := none, resetPasswordExpires := 0, avatar := { url := none } }

/-! ## Lemmas on the collection -/

theorem findById_id {store : Store} {id : Nat} {u : User}
    (h : findById store id = some u) : u._id = id := by
  have := List.find?_some h
  simpa using this

theorem findByEmail_email {store : Store} {e : String} {u : User}
    (h : findByEmail store e = some u) : u.email = e := by
  have := List.find?_some h
  simpa using this

theorem findByToken_token {store : Store} {t : Option String} {u : User}
    (h : findByToken store t = some u) : u.token = t := by
  have := List.find?_some h
  simpa using this

theorem findById_mem {store : Store} {id : Nat} {u : User}
    (h : findById store id = some u) : u ∈ store :=
  List.mem_of_find?_eq_some h

theorem findByEmail_mem {store : Store} {e : String} {u : User}
    (h : findByEmail store e = some u) : u ∈ store :=
  List.mem_of_find?_eq_some h

/-- Saving a loaded document makes it the document found under its `_id`. -/
theorem findById_save {store : Store} {doc u : User}
    (h : findById store doc._id = some u) : findById (save doc store) doc._id = some doc := by
  induction store with
  | nil => simp [findById] at h
  | cons x rest ih =>
    by_cases hx : x._id = doc._id
    · simp [save, hx, findById]
    · have h1 : findById rest doc._id = some u := by
        simpa [findById, List.find?_cons, hx] using h
      have := ih h1
      simpa [save, hx, findById, List.find?_cons] using this

/-- Saving a document whose `_id` is not in the collection changes nothing. -/
theorem save_of_findById_none {store : Store} {doc : User}
    (h : findById store doc._id = none) : save doc store = store := by
  induction store with
  | nil => rfl
  | cons x rest ih =>
    by_cases hx : x._id = doc._id
    · simp [findById, List.find?_cons, hx] at h
    · have h1 : findById rest doc._id = none := by
        simpa [findById, List.find?_cons, hx] using h
      simp [save, hx, ih h1]

/-- In a collection with distinct ids a stored document is the one found under
its `_id`. -/
theorem findById_of_mem {store : Store} {u : User}
    (hu : UniqueIds store) (h : u ∈ store) : findById store u._id = some u := by
  induction store with
  | nil => simp at h
  | cons x rest ih =>
    have hp := List.pairwise_cons.1 hu
    rcases List.mem_cons.1 h with rfl | hmem
    · simp [findById]
    · have hx : x._id ≠ u._id := hp.1 u hmem
      have := ih hp.2 hmem
      simpa [findById, List.find?_cons, hx] using this

/-- Saving a document with the email it had keeps it the document found under
that email. -/
theorem findByEmail_save {store : Store} {e : String} {a doc : User}
    (he : findByEmail store e = some a) (hi : findById store a._id = some a)
    (hid : doc._id = a._id) (hem : doc.email = a.email) :
    findByEmail (save doc store) e = some doc := by
  have hae : a.email = e := findByEmail_email he
  induction store with
  | nil => simp [findByEmail] at he
  | cons x rest ih =>
    by_cases hx : x._id = a._id
    · have hxa : x = a := by
        simpa [findById, List.find?_cons, hx] using hi
      simp [save, hx, hid, findByEmail, hem, hae]
    · have hxe : x.email ≠ e := by
        intro hxe
        have hxa : x = a := by
          simpa [findByEmail, List.find?_cons, hxe] using he
        exact hx (by rw [hxa])
      have he1 : findByEmail rest e = some a := by
        simpa [findByEmail, List.find?_cons, hxe] using he
      have hi1 : findById rest a._id = some a := by
        simpa [findById, List.find?_cons, hx] using hi
      have := ih he1 hi1
      simpa [save, hx, hid, findByEmail, List.find?_cons, hxe] using this

/-- In a collection with distinct ids, the documents after a save are the saved
one and the stored ones with another `_id`. -/
theorem mem_save {store : Store} {doc w : User} (hu : UniqueIds store)
    (h : w ∈ save doc store) : w = doc ∨ (w ∈ store ∧ w._id ≠ doc._id) := by
  induction store with
  | nil => simp [save] at h
  | cons x rest ih =>
    have hp := List.pairwise_cons.1 hu
    by_cases hx : x._id = doc._id
    · simp only [save, hx, if_true, List.mem_cons] at h
      rcases h with rfl | hmem
      · exact Or.inl rfl
      · refine Or.inr ⟨List.mem_cons_of_mem _ hmem, ?_⟩
        intro hw
        exact hp.1 w hmem (by rw [hx, hw])
    · simp only [save, hx, if_false, List.mem_cons] at h
      rcases h with rfl | hmem
      · exact Or.inr ⟨List.mem_cons_self _ _, hx⟩
      · rcases ih hp.2 hmem with rfl | ⟨hm, hne⟩
        · exact Or.inl rfl
        · exact Or.inr ⟨List.mem_cons_of_mem _ hm, hne⟩

/-- Some document is found under the `_id` of a stored document. -/
theorem findById_of_mem_exists {store : Store} {u : User}
    (hm : u ∈ store) : ∃ v, findById store u._id = some v := by
  cases hf : findById store u._id with
  | some v => exact ⟨v, rfl⟩
  | none =>
    have := List.find?_eq_none.1 hf u hm
    simp at this


theorem findByToken_mem {store : Store} {t : Option String} {u : User}
    (h : findByToken store t = some u) : u ∈ store :=
  List.mem_of_find?_eq_some h

/-- A document added to a collection that has none under its email is the one
found under that email. -/
theorem findByEmail_insert {store : Store} {doc : User}
    (h : findByEmail store doc.email = none) :
    findByEmail (insert doc store) doc.email = some doc := by
  unfold findByEmail at h
  simp [findByEmail, insert, List.find?_append, h]

/-- Emails stay distinct when a document is added under an email the collection
does not have. -/
theorem nodup_emails_insert {store : Store} {doc : User}
    (h : findByEmail store doc.email = none)
    (hn : (store.map (fun u => u.email)).Nodup) :
    ((insert doc store).map (fun u => u.email)).Nodup := by
  have hne : ∀ u ∈ store, u.email ≠ doc.email := by
    intro u hu
    have := List.find?_eq_none.1 h u hu
    simpa using this
  simp only [insert, List.map_append, List.map_cons, List.map_nil]
  refine List.Nodup.append hn (List.nodup_singleton _) ?_
  intro e h1 h2
  rw [List.mem_singleton] at h2
  rcases List.mem_map.1 h1 with ⟨u, hu, rfl⟩
  exact hne u hu h2


/-! ## Lemmas on `split('.')` -/

theorem splitDot_ne_nil (cs : List Char) : splitDot cs ≠ [] := by
  cases cs with
  | nil => simp [splitDot]
  | cons c cs =>
    by_cases hc : c = '.'
    · simp [splitDot, hc]
    · cases h : splitDot cs <;> simp [splitDot, hc, h]

/-- A name without a dot is one segment. -/
theorem splitDot_of_no_dot (cs : List Char) (h : '.' ∉ cs) : splitDot cs = [cs] := by
  induction cs with
  | nil => rfl
  | cons c cs ih =>
    have hc : c ≠ '.' := fun hc => h (by simp [hc])
    have hcs : '.' ∉ cs := fun hm => h (List.mem_cons_of_mem _ hm)
    simp [splitDot, hc, ih hcs]

/-- Splitting around a dot: the segments before it, then the segments after it. -/
theorem splitDot_append_dot (pre ext : List Char) :
    splitDot (pre ++ '.' :: ext) = splitDot pre ++ splitDot ext := by
  induction pre with
  | nil => simp [splitDot]
  | cons c pre ih =>
    by_cases hc : c = '.'
    · simp [splitDot, hc, ih]
    · cases h : splitDot pre with
      | nil => exact absurd h (splitDot_ne_nil pre)
      | cons piece pieces => simp [splitDot, hc, ih, h]

/-- The last segment of `pre.ext`, when `ext` has no dot, is `ext`. -/
theorem lastSegment_append_dot (pre ext : String) (h : '.' ∉ ext.data) :
    lastSegment (pre ++ "." ++ ext) = ext := by
  have hd : (pre ++ "." ++ ext).data = pre.data ++ '.' :: ext.data := by
    simp [String.data_append]
  unfold lastSegment
  rw [hd, splitDot_append_dot, splitDot_of_no_dot _ h]
  simp

/-- The last segment of a name without a dot is the name. -/
theorem lastSegment_of_no_dot (name : String) (h : '.' ∉ name.data) :
    lastSegment name = name := by
  unfold lastSegment
  rw [splitDot_of_no_dot _ h]
  simp


/-! ## Ids of new documents -/

theorem le_foldr_max (ids : List Nat) (n : Nat) (h : n ∈ ids) : n ≤ ids.foldr max 0 := by
  induction ids with
  | nil => simp at h
  | cons x rest ih =>
    rcases List.mem_cons.1 h with rfl | hm
    · simp
    · have := ih hm
      simp only [List.foldr_cons]
      exact le_trans this (le_max_right _ _)

/-- The id of a new document is not in the collection. -/
theorem newId_fresh (store : Store) : ∀ u ∈ store, u._id ≠ newId store := by
  intro u hu
  have : u._id ≤ (store.map (fun u => u._id)).foldr max 0 :=
    le_foldr_max _ _ (List.mem_map.2 ⟨u, hu, rfl⟩)
  unfold newId
  omega

/-- Adding a document under a new id keeps the ids distinct. -/
theorem uniqueIds_insert {store : Store} {doc : User}
    (hu : UniqueIds store) (hid : doc._id = newId store) : UniqueIds (insert doc store) := by
  unfold UniqueIds insert
  rw [List.pairwise_append]
  refine ⟨hu, List.pairwise_singleton _ _, ?_⟩
  intro a ha b hb
  rw [List.mem_singleton] at hb
  rw [hb, hid]
  exact newId_fresh store a ha


/-- In a collection with distinct emails a stored document is the one found
under its email. -/
theorem findByEmail_of_mem {store : Store} {u : User}
    (hn : (store.map (fun u => u.email)).Nodup) (h : u ∈ store) :
    findByEmail store u.email = some u := by
  induction store with
  | nil => simp at h
  | cons x rest ih =>
    have hp := List.nodup_cons.1 hn
    rcases List.mem_cons.1 h with rfl | hmem
    · simp [findByEmail]
    · have hx : x.email ≠ u.email := by
        intro hx
        exact hp.1 (List.mem_map.2 ⟨u, hmem, hx.symm⟩)
      have := ih hp.2 hmem
      simpa [findByEmail, List.find?_cons, hx] using this


/-! ## Invariants of the collection -/

/-- A save leaves the ids of the collection as they were. -/
theorem map_id_save (doc : User) (store : Store) :
    (save doc store).map (fun u => u._id) = store.map (fun u => u._id) := by
  induction store with
  | nil => rfl
  | cons x rest ih =>
    by_cases hx : x._id = doc._id
    · simp [save, hx]
    · simp [save, hx, ih]

/-- A save keeps the ids distinct. -/
theorem uniqueIds_save {store : Store} (doc : User) (hu : UniqueIds store) :
    UniqueIds (save doc store) := by
  have h1 : (store.map (fun u => u._id)).Pairwise (fun a b => a ≠ b) :=
    List.pairwise_map.2 hu
  rw [← map_id_save doc store] at h1
  exact List.pairwise_map.1 h1

/-- A save keeps the live tokens distinct when no document under another id holds
the token of the saved document, unless that token is `null`: so when the
saved token is `null`, new, or the one the document had. -/
theorem distinctTokens_save {store : Store} {doc : User}
    (hu : UniqueIds store) (ht : DistinctTokens store)
    (h : ∀ v ∈ store, v._id ≠ doc._id → v.token = doc.token → doc.token = none) :
    DistinctTokens (save doc store) := by
  induction store with
  | nil => simp [save, DistinctTokens]
  | cons x rest ih =>
    have hp := List.pairwise_cons.1 hu
    have hq := List.pairwise_cons.1 ht
    by_cases hx : x._id = doc._id
    · simp only [save, hx, if_true]
      refine List.pairwise_cons.2 ⟨?_, hq.2⟩
      intro b hb hdb
      have hbid : b._id ≠ doc._id := fun hb1 => hp.1 b hb (by rw [hx, hb1])
      exact h b (List.mem_cons_of_mem _ hb) hbid hdb.symm
    · simp only [save, hx, if_false]
      have ih1 := ih hp.2 hq.2 (fun v hv => h v (List.mem_cons_of_mem _ hv))
      refine List.pairwise_cons.2 ⟨?_, ih1⟩
      intro b hb hxb
      rcases mem_save hp.2 hb with rfl | ⟨hm, _⟩
      · have := h x (List.mem_cons_self _ _) hx hxb
        rw [hxb, this]
      · exact hq.1 b hm hxb

/-- Adding a document keeps the live tokens distinct when no stored document
holds its token. -/
theorem distinctTokens_insert {store : Store} {doc : User}
    (ht : DistinctTokens store) (h : ∀ v ∈ store, v.token ≠ doc.token) :
    DistinctTokens (insert doc store) := by
  unfold DistinctTokens insert
  rw [List.pairwise_append]
  refine ⟨ht, List.pairwise_singleton _ _, ?_⟩
  intro a ha b hb hab
  rw [List.mem_singleton] at hb
  rw [hb] at hab
  exact absurd hab (h a ha)

/-- In a collection with distinct ids and distinct live tokens, a document under
another id than a stored one shares its token only when that token is `null`. -/
theorem token_of_other {store : Store} {user v : User}
    (ht : DistinctTokens store) (hm : user ∈ store) (hv : v ∈ store)
    (hne : v._id ≠ user._id) (htok : v.token = user.token) : user.token = none := by
  have hsymm : Symmetric (fun a b : User => a.token = b.token → a.token = none) := by
    intro a b hab hba
    rw [hba]
    exact hab hba.symm
  have hvu : v ≠ user := fun h => hne (by rw [h])
  have := List.Pairwise.forall hsymm ht hv hm hvu htok
  rw [← htok]
  exact this

/-- The invariants hold of the empty collection and `create` keeps them when
`setToken()` draws a token no account holds. -/
theorem create_keeps_invariants (m : UserModel) (env : Env) (store : Store)
    (email password : String)
    (hu : UniqueIds store) (ht : DistinctTokens store)
    (hfresh : ∀ u, ∀ v ∈ store, v.token ≠ some (m.newToken u).1) :
    UniqueIds (create m env store email password).2 ∧
    DistinctTokens (create m env store email password).2 := by
  cases hf : findByEmail store email with
  | some u => simpa [create, hf] using And.intro hu ht
  | none =>
    have hc : (create m env store email password).2
        = insert (m.setToken (newUser store email (env.sha256hex password))) store := by
      simp [create, hf]
    rw [hc]
    exact ⟨uniqueIds_insert hu rfl, distinctTokens_insert ht (fun v hv => hfresh _ v hv)⟩

/-- The operation `login` keeps the invariants when `setToken()` draws a token no
account holds. -/
theorem login_keeps_invariants (m : UserModel) (store : Store) (email password : String)
    (hu : UniqueIds store) (ht : DistinctTokens store)
    (hfresh : ∀ u, ∀ v ∈ store, v.token ≠ some (m.newToken u).1) :
    UniqueIds (login m store email password).2 ∧
    DistinctTokens (login m store email password).2 := by
  cases hf : findByEmail store email with
  | none => simpa [login, hf] using And.intro hu ht
  | some aUser =>
    cases hc : m.comparePassword aUser password with
    | false => simpa [login, hf, hc] using And.intro hu ht
    | true =>
      have hl : (login m store email password).2 = save (m.setToken aUser) store := by
        simp [login, hf, hc]
      rw [hl]
      refine ⟨uniqueIds_save _ hu, distinctTokens_save hu ht ?_⟩
      intro v hv _ hvt
      exact absurd hvt (hfresh aUser v hv)

/-- The operation `tokenLogin` keeps the invariants when `setToken()` draws a
token no account holds. -/
theorem tokenLogin_keeps_invariants (m : UserModel) (store : Store) (token : Option String)
    (hu : UniqueIds store) (ht : DistinctTokens store)
    (hfresh : ∀ u, ∀ v ∈ store, v.token ≠ some (m.newToken u).1) :
    UniqueIds (tokenLogin m store token).2 ∧ DistinctTokens (tokenLogin m store token).2 := by
  cases hf : findByToken store token with
  | none => simpa [tokenLogin, hf] using And.intro hu ht
  | some aUser =>
    cases hc : m.isTokenExpired aUser with
    | true => simpa [tokenLogin, hf, hc] using And.intro hu ht
    | false =>
      have hl : (tokenLogin m store token).2 = save (m.setToken aUser) store := by
        simp [tokenLogin, hf, hc]
      rw [hl]
      refine ⟨uniqueIds_save _ hu, distinctTokens_save hu ht ?_⟩
      intro v hv _ hvt
      exact absurd hvt (hfresh aUser v hv)

/-- The operation `logout` keeps the invariants. -/
theorem logout_keeps_invariants (store : Store) (userId : Nat)
    (hu : UniqueIds store) (ht : DistinctTokens store) :
    UniqueIds (logout store userId).2 ∧ DistinctTokens (logout store userId).2 := by
  cases hf : findById store userId with
  | none => simpa [logout, hf] using And.intro hu ht
  | some user =>
    have hl : (logout store userId).2 = save { user with token := none } store := by
      simp [logout, hf]
    rw [hl]
    exact ⟨uniqueIds_save _ hu, distinctTokens_save hu ht (fun _ _ _ _ => rfl)⟩


/-! ## Login -/

/-- C1: `login(email, password)` over any store. With no user under the email
it is rejected with status 422 and the store is unchanged; with a user under the
email whose `comparePassword(password)` is false it is rejected with status 401
and the store is unchanged; when `comparePassword(password)` is true it is
fulfilled with that user after `setToken()`, that user has been saved, and the
document stored under its `_id` is the user with the new token and expiry. -/
theorem login_contract (m : UserModel) (store : Store) (email password : String) :
    (findByEmail store email = none →
      login m store email password = (.rejected (.status 422 "User doesn't exist"), store)) ∧
    (∀ aUser, findByEmail store email = some aUser → m.comparePassword aUser password = false →
      login m store email password = (.rejected (.status 401 "Incorrect credentials"), store)) ∧
    (∀ aUser, findByEmail store email = some aUser → m.comparePassword aUser password = true →
      login m store email password = (.resolved (m.setToken aUser), save (m.setToken aUser) store) ∧
      findById (login m store email password).2 aUser._id = some (m.setToken aUser) ∧
      (m.setToken aUser).token = some (m.newToken aUser).1 ∧
      (m.setToken aUser).tokenExpiry = (m.newToken aUser).2) := by
  refine ⟨?_, ?_, ?_⟩
  · intro h
    simp [login, h]
  · intro aUser h hc
    simp [login, h, hc]
  · intro aUser h hc
    have hl : login m store email password
        = (.resolved (m.setToken aUser), save (m.setToken aUser) store) := by
      simp [login, h, hc]
    refine ⟨hl, ?_, rfl, rfl⟩
    rw [hl]
    have hid : (m.setToken aUser)._id = aUser._id := rfl
    obtain ⟨v, hv⟩ := findById_of_mem_exists (findByEmail_mem h)
    have hf : findById store (m.setToken aUser)._id = some v := by rw [hid]; exact hv
    simpa [hid] using findById_save hf

/-- C1 on the sample store: a wrong email, a wrong password and the right
password. -/
theorem login_contract_witness :
    login (sampleModel sampleDigest 10) [alice, bob] "c@x.com" "pw1"
      = (.rejected (.status 422 "User doesn't exist"), [alice, bob]) ∧
    login (sampleModel sampleDigest 10) [alice, bob] "a@x.com" "wrong"
      = (.rejected (.status 401 "Incorrect credentials"), [alice, bob]) ∧
    login (sampleModel sampleDigest 10) [alice, bob] "a@x.com" "pw1"
      = (.resolved { alice with token := some "tok-1-10", tokenExpiry := 3610 },
         [{ alice with token := some "tok-1-10", tokenExpiry := 3610 }, bob]) := by
  have h := login_contract (sampleModel sampleDigest 10) [alice, bob]
  refine ⟨(h "c@x.com" "pw1").1 (by decide), ?_, ?_⟩
  · exact (h "a@x.com" "wrong").2.1 alice (by decide) (by decide)
  · have := ((h "a@x.com" "pw1").2.2 alice (by decide) (by decide)).1
    rw [this]
    decide

/-- C2: `tokenLogin(token)` over any store. It is rejected with status 401 when
no user holds the token; rejected with status 401, the store unchanged, when the
user found reports `isTokenExpired()`; otherwise it is fulfilled with that user
after `setToken()`, saved under its `_id`. It succeeds exactly when a user
holding the token is found and that user's token is not expired. -/
theorem tokenLogin_contract (m : UserModel) (store : Store) (token : Option String) :
    (findByToken store token = none →
      tokenLogin m store token
        = (.rejected (.status 401 "Cannot log in with incorrect token"), store)) ∧
    (∀ aUser, findByToken store token = some aUser → m.isTokenExpired aUser = true →
      tokenLogin m store token = (.rejected (.status 401 "Login token has expired"), store)) ∧
    (∀ aUser, findByToken store token = some aUser → m.isTokenExpired aUser = false →
      tokenLogin m store token = (.resolved (m.setToken aUser), save (m.setToken aUser) store) ∧
      findById (tokenLogin m store token).2 aUser._id = some (m.setToken aUser)) ∧
    ((tokenLogin m store token).1.succeeded = true ↔
      ∃ aUser, findByToken store token = some aUser ∧ m.isTokenExpired aUser = false) := by
  refine ⟨?_, ?_, ?_, ?_⟩
  · intro h
    simp [tokenLogin, h]
  · intro aUser h hx
    simp [tokenLogin, h, hx]
  · intro aUser h hx
    have hl : tokenLogin m store token
        = (.resolved (m.setToken aUser), save (m.setToken aUser) store) := by
      simp [tokenLogin, h, hx]
    refine ⟨hl, ?_⟩
    rw [hl]
    have hid : (m.setToken aUser)._id = aUser._id := rfl
    obtain ⟨v, hv⟩ := findById_of_mem_exists (findByToken_mem h)
    have hf : findById store (m.setToken aUser)._id = some v := by rw [hid]; exact hv
    simpa [hid] using findById_save hf
  · cases h : findByToken store token with
    | none => simp [tokenLogin, h, Outcome.succeeded]
    | some aUser =>
      cases hx : m.isTokenExpired aUser <;> simp [tokenLogin, h, hx, Outcome.succeeded]

/-- C2 on the sample store at time 10 and at time 500: an unknown token, a
token in its validity window (rotated to a new one), and the same token at its
expiry. -/
theorem tokenLogin_contract_witness :
    tokenLogin (sampleModel sampleDigest 10) [alice] (some "T9")
      = (.rejected (.status 401 "Cannot log in with incorrect token"), [alice]) ∧
    tokenLogin (sampleModel sampleDigest 10) [alice] (some "T1")
      = (.resolved { alice with token := some "tok-1-10", tokenExpiry := 3610 },
         [{ alice with token := some "tok-1-10", tokenExpiry := 3610 }]) ∧
    tokenLogin (sampleModel sampleDigest 500) [alice] (some "T1")
      = (.rejected (.status 401 "Login token has expired"), [alice]) := by
  refine ⟨(tokenLogin_contract (sampleModel sampleDigest 10) [alice] (some "T9")).1 (by decide),
    ?_, ?_⟩
  · have := ((tokenLogin_contract (sampleModel sampleDigest 10) [alice] (some "T1")).2.2.1
      alice (by decide) (by decide)).1
    rw [this]
    decide
  · exact (tokenLogin_contract (sampleModel sampleDigest 500) [alice] (some "T1")).2.1
      alice (by decide) (by decide)

/-! ## Account creation -/

/-- C3: for every store, email and passwords, run one after the other: when
`create(email, pw)` succeeds, `create(email, pw2)` on the resulting store is
rejected with status 422, "User already exists", and leaves the store unchanged;
and a `create` keeps the emails of the store distinct. -/
theorem create_twice_conflict (m m2 : UserModel) (env : Env) (store : Store)
    (email pw pw2 : String)
    (h : (create m env store email pw).1.succeeded = true) :
    create m2 env (create m env store email pw).2 email pw2
      = (.rejected (.status 422 "User already exists"), (create m env store email pw).2) ∧
    ((store.map (fun u => u.email)).Nodup →
      ((create m env store email pw).2.map (fun u => u.email)).Nodup) := by
  cases hf : findByEmail store email with
  | some u => simp [create, hf, Outcome.succeeded] at h
  | none =>
    have hc : create m env store email pw
        = (.resolved { m.setToken (newUser store email (env.sha256hex pw)) with password := none },
           insert (m.setToken (newUser store email (env.sha256hex pw))) store) := by
      simp [create, hf]
    have hem : (m.setToken (newUser store email (env.sha256hex pw))).email = email := rfl
    have hf1 : findByEmail store (m.setToken (newUser store email (env.sha256hex pw))).email
        = none := by rw [hem]; exact hf
    have hfound := findByEmail_insert hf1
    rw [hem] at hfound
    rw [hc]
    refine ⟨?_, fun hn => nodup_emails_insert hf1 hn⟩
    simp [create, hfound]

/-- C3 on the sample store: a second account for `c@x.com` is refused. -/
theorem create_twice_conflict_witness :
    (create (sampleModel sampleDigest 10) sampleEnv [alice] "c@x.com" "pw").1.succeeded = true ∧
    create (sampleModel sampleDigest 20) sampleEnv
        (create (sampleModel sampleDigest 10) sampleEnv [alice] "c@x.com" "pw").2 "c@x.com" "pw2"
      = (.rejected (.status 422 "User already exists"),
         (create (sampleModel sampleDigest 10) sampleEnv [alice] "c@x.com" "pw").2) :=
  ⟨by decide,
   (create_twice_conflict (sampleModel sampleDigest 10) (sampleModel sampleDigest 20) sampleEnv
      [alice] "c@x.com" "pw" "pw2" (by decide)).1⟩

/-- C4: on a store with no account under the email, `create(email, password)`
succeeds; the account it returns has password `null`, while the document stored
under the email has the digest of the password as its password, an avatar url
`null`, and the token and expiry set by `setToken()`. -/
theorem create_hides_password (m : UserModel) (env : Env) (store : Store)
    (email password : String) (h : findByEmail store email = none) :
    ∃ created stored,
      create m env store email password = (.resolved created, insert stored store) ∧
      created.password = none ∧
      created = { stored with password := none } ∧
      findByEmail (create m env store email password).2 email = some stored ∧
      stored.email = email ∧
      stored.password = some (env.sha256hex password) ∧
      stored.avatar.url = none ∧
      stored = m.setToken (newUser store email (env.sha256hex password)) ∧
      stored.token = some (m.newToken (newUser store email (env.sha256hex password))).1 := by
  have hc : create m env store email password
      = (.resolved
          { m.setToken (newUser store email (env.sha256hex password)) with password := none },
         insert (m.setToken (newUser store email (env.sha256hex password))) store) := by
    simp [create, h]
  refine ⟨_, m.setToken (newUser store email (env.sha256hex password)), hc, rfl, rfl, ?_,
    rfl, rfl, rfl, rfl, rfl⟩
  rw [hc]
  have hem : (m.setToken (newUser store email (env.sha256hex password))).email = email := rfl
  have hf1 : findByEmail store (m.setToken (newUser store email (env.sha256hex password))).email
      = none := by rw [hem]; exact h
  have := findByEmail_insert hf1
  rwa [hem] at this

/-- C4 on the sample store: the stored document of the new account. -/
theorem create_hides_password_witness :
    findByEmail [alice] "c@x.com" = none ∧
    ∃ created stored,
      create (sampleModel sampleDigest 10) sampleEnv [alice] "c@x.com" "pw"
        = (.resolved created, insert stored [alice]) ∧
      created.password = none ∧
      created = { stored with password := none } ∧
      findByEmail (create (sampleModel sampleDigest 10) sampleEnv [alice] "c@x.com" "pw").2
        "c@x.com" = some stored ∧
      stored.email = "c@x.com" ∧
      stored.password = some (sampleEnv.sha256hex "pw") ∧
      stored.avatar.url = none ∧
      stored = (sampleModel sampleDigest 10).setToken
        (newUser [alice] "c@x.com" (sampleEnv.sha256hex "pw")) ∧
      stored.token = some ((sampleModel sampleDigest 10).newToken
        (newUser [alice] "c@x.com" (sampleEnv.sha256hex "pw"))).1 :=
  ⟨by decide,
   create_hides_password (sampleModel sampleDigest 10) sampleEnv [alice] "c@x.com" "pw"
     (by decide)⟩

/-! ## Logout -/

/-- C5: for every store and every account id present in it, with `oldToken`
the current token of that account (`user.token`): `logout(id)` succeeds and
`getUserByToken(oldToken)` on the resulting store returns no record or a record
whose token is `null`. A store is a collection as the service builds it: its
ids are distinct and no two accounts hold the same non-null token
(`create_keeps_invariants`, `login_keeps_invariants`,
`tokenLogin_keeps_invariants`, `logout_keeps_invariants`). -/
theorem logout_getUserByToken (store : Store) (id : Nat) (user : User)
    (hu : UniqueIds store) (ht : DistinctTokens store)
    (hf : findById store id = some user) :
    (logout store id).1.succeeded = true ∧
    (getUserByToken (logout store id).2 user.token = none ∨
      ∃ r, getUserByToken (logout store id).2 user.token = some r ∧ r.token = none) := by
  have hl : logout store id
      = (.resolved { user with token := none }, save { user with token := none } store) := by
    simp [logout, hf]
  rw [hl]
  refine ⟨rfl, ?_⟩
  cases hg : getUserByToken (save { user with token := none } store) user.token with
  | none => exact Or.inl rfl
  | some r =>
    refine Or.inr ⟨r, rfl, ?_⟩
    have hrt : r.token = user.token := findByToken_token hg
    rcases mem_save hu (findByToken_mem hg) with rfl | ⟨hm, hne⟩
    · rfl
    · have : user.token = none := token_of_other ht (findById_mem hf) hm hne hrt
      rw [hrt, this]

/-- C5 on the store the service builds with two `create` calls: account 1 holds
`tok-1-10`, account 2 holds `tok-2-10`; after `logout(1)` the old token
`tok-1-10` finds no record, and account 2 is still found under its own token. -/
theorem logout_getUserByToken_witness :
    UniqueIds twoAccounts ∧ DistinctTokens twoAccounts ∧
    findById twoAccounts 1 = some account1 ∧ account1.token = some "tok-1-10" ∧
    (findById twoAccounts 2).map (fun u => u.token) = some (some "tok-2-10") ∧
    (logout twoAccounts 1).1.succeeded = true ∧
    getUserByToken (logout twoAccounts 1).2 (some "tok-1-10") = none ∧
    (getUserByToken (logout twoAccounts 1).2 (some "tok-2-10")).map (fun u => u._id) = some 2 ∧
    (getUserByToken (logout twoAccounts 1).2 (some "tok-1-10") = none ∨
      ∃ r, getUserByToken (logout twoAccounts 1).2 (some "tok-1-10") = some r ∧
        r.token = none) := by
  refine ⟨by decide, by decide, by decide, by decide, by decide, by decide, by decide, by decide,
    ?_⟩
  exact (logout_getUserByToken twoAccounts 1 account1 (by decide) (by decide) (by decide)).2

/-- C6: `logout(7)` on a store with no account 7 is rejected with the
`TypeError` of `user.token = null` on `null`, not with a status failure; the
store is unchanged. On a store with the account, `logout(1)` is fulfilled with
the account, its token `null` and its other fields as they were. -/
theorem logout_missing_account :
    logout [alice] 7 = (.rejected (.typeError "token"), [alice]) ∧
    logout [alice] 1 = (.resolved { alice with token := none }, [{ alice with token := none }]) := by
  decide

/-! ## Password update -/

/-- C7, as the claim states it, fails when the new password is the old one:
with `comparePassword` comparing the stored hash with the digest,
`updatePassword(alice, "pw1", "pw1")` succeeds, and `login` with the old
password `pw1` then succeeds. -/
theorem updatePassword_login_counterexample :
    (∀ u p, (sampleModel sampleDigest 10).comparePassword u p
      = decide (u.password = some (sampleEnv.sha256hex p))) ∧
    findByEmail [alice] "a@x.com" = some alice ∧
    (updatePassword (sampleModel sampleDigest 10) sampleEnv [alice] alice "pw1" "pw1").1.succeeded
      = true ∧
    (login (sampleModel sampleDigest 10)
      (updatePassword (sampleModel sampleDigest 10) sampleEnv [alice] alice "pw1" "pw1").2
      "a@x.com" "pw1").1.succeeded = true :=
  ⟨fun _ _ => rfl, by decide, by decide, by decide⟩

/-- C7, amended: assuming `comparePassword(p)` holds exactly when the digest of
`p` is the stored password, for every stored account that is the one found under
its email `e` (every stored account when the emails are distinct,
`findByEmail_of_mem`) and passwords whose digests differ: when
`updatePassword(account, oldPw, newPw)` succeeds, `login(e, newPw)` on the
resulting store succeeds and `login(e, oldPw)` is rejected with status 401. And,
for every stored account and all passwords, with no assumption: when the current
password does not match, `updatePassword` is rejected with status 422 and the
store, so the stored hash, is unchanged. -/
theorem updatePassword_login (m : UserModel) (env : Env) (store : Store) (user a : User)
    (oldPw newPw : String) :
    ((∀ u p, m.comparePassword u p = decide (u.password = some (env.sha256hex p))) →
      findById store user._id = some a →
      findByEmail store a.email = some a →
      env.sha256hex oldPw ≠ env.sha256hex newPw →
      (updatePassword m env store user oldPw newPw).1.succeeded = true →
      (login m (updatePassword m env store user oldPw newPw).2 a.email newPw).1.succeeded = true ∧
      (login m (updatePassword m env store user oldPw newPw).2 a.email oldPw).1
        = .rejected (.status 401 "Incorrect credentials")) ∧
    (findById store user._id = some a →
      m.comparePassword a oldPw = false →
      updatePassword m env store user oldPw newPw
        = (.rejected (.status 422 "Password is incorrect"), store) ∧
      findById (updatePassword m env store user oldPw newPw).2 user._id = some a) := by
  refine ⟨?_, ?_⟩
  · intro hcmp hi1 he hne hs
    have hid : user._id = a._id := (findById_id hi1).symm
    have hi : findById store a._id = some a := by rw [← hid]; exact hi1
    cases hc : m.comparePassword a oldPw with
    | false => simp [updatePassword, hi1, hc, Outcome.succeeded] at hs
    | true =>
      have hup : updatePassword m env store user oldPw newPw
          = (.resolved { a with password := some (env.sha256hex newPw) },
             save { a with password := some (env.sha256hex newPw) } store) := by
        simp [updatePassword, hi1, hc]
      rw [hup]
      have hfe : findByEmail (save { a with password := some (env.sha256hex newPw) } store) a.email
          = some { a with password := some (env.sha256hex newPw) } :=
        findByEmail_save he hi rfl rfl
      have hne1 : ¬ env.sha256hex newPw = env.sha256hex oldPw := fun h => hne h.symm
      constructor
      · simp [login, hfe, hcmp, Outcome.succeeded]
      · simp [login, hfe, hcmp, hne1]
  · intro hi1 hc
    have hup : updatePassword m env store user oldPw newPw
        = (.rejected (.status 422 "Password is incorrect"), store) := by
      simp [updatePassword, hi1, hc]
    rw [hup]
    exact ⟨rfl, hi1⟩

/-- C7, amended, on the store the service builds with two `create` calls:
account 1 changes `pw1` to `pw9`, after which `pw9` logs in and `pw1` does not;
and a wrong current password, with the new password equal to it, is refused and
changes nothing. -/
theorem updatePassword_login_witness :
    findById twoAccounts account1._id = some account1 ∧
    findByEmail twoAccounts account1.email = some account1 ∧
    (updatePassword (sampleModel sampleDigest 20) sampleEnv twoAccounts account1
      "pw1" "pw9").1.succeeded = true ∧
    ((login (sampleModel sampleDigest 20)
      (updatePassword (sampleModel sampleDigest 20) sampleEnv twoAccounts account1 "pw1" "pw9").2
      account1.email "pw9").1.succeeded = true ∧
     (login (sampleModel sampleDigest 20)
      (updatePassword (sampleModel sampleDigest 20) sampleEnv twoAccounts account1 "pw1" "pw9").2
      account1.email "pw1").1 = .rejected (.status 401 "Incorrect credentials")) ∧
    (updatePassword (sampleModel sampleDigest 20) sampleEnv twoAccounts account1 "bad" "bad"
        = (.rejected (.status 422 "Password is incorrect"), twoAccounts) ∧
     findById
        (updatePassword (sampleModel sampleDigest 20) sampleEnv twoAccounts account1 "bad" "bad").2
        account1._id = some account1) :=
  ⟨by decide, by decide, by decide,
   (updatePassword_login (sampleModel sampleDigest 20) sampleEnv twoAccounts account1 account1
      "pw1" "pw9").1 (fun _ _ => rfl) (by decide) (by decide) (by decide) (by decide),
   (updatePassword_login (sampleModel sampleDigest 20) sampleEnv twoAccounts account1 account1
      "bad" "bad").2 (by decide) (by decide)⟩

/-! ## Password reset -/

/-- C8: on a store with no account under the email,
`resetPassword(token, email, newPassword)` is rejected with the status failure
422, "The email you entered does not exist in the system": the callback then
throws the `TypeError` of reading `validateResetPasswordToken` on `null`, and the
`reject` of the catch handler finds the promise settled. The promise is not
fulfilled and the store is unchanged. -/
theorem resetPassword_unknown_email (m : UserModel) (env : Env) (store : Store)
    (token email newPassword : String) (h : findByEmail store email = none) :
    resetPassword m env store token email newPassword
      = { promise := some (.rejected
            (.status 422 "The email you entered does not exist in the system")),
          store := store } ∧
    (resetPasswordThen m env token newPassword (findByEmail store email)
        { promise := none, store := store }).2
      = some (.typeError "validateResetPasswordToken") ∧
    (∀ message, (resetPassword m env store token email newPassword).promise
      ≠ some (.resolved message)) ∧
    (resetPassword m env store token email newPassword).promise
      ≠ some (.rejected (.typeError "validateResetPasswordToken")) := by
  have hr : resetPassword m env store token email newPassword
      = { promise := some (.rejected
            (.status 422 "The email you entered does not exist in the system")),
          store := store } := by
    simp [resetPassword, resetPasswordThen, h, Exec.reject, Promise.settle]
  refine ⟨hr, ?_, ?_, ?_⟩
  · simp [resetPasswordThen, h]
  · intro message
    rw [hr]
    simp
  · rw [hr]
    simp

/-- C8 on the sample store: no account under `c@x.com`. -/
theorem resetPassword_unknown_email_witness :
    findByEmail [alice] "c@x.com" = none ∧
    resetPassword (sampleModel sampleDigest 10) sampleEnv [alice] "R1" "c@x.com" "p1"
      = { promise := some (.rejected
            (.status 422 "The email you entered does not exist in the system")),
          store := [alice] } :=
  ⟨by decide,
   (resetPassword_unknown_email (sampleModel sampleDigest 10) sampleEnv [alice] "R1" "c@x.com"
      "p1" (by decide)).1⟩

/-- C9, as the claim states it, fails: the reset token is not consumed. At
time 10 `alice` holds the reset token `R1` until time 300;
`resetPassword("R1", "a@x.com", "p1")` succeeds, and so does
`resetPassword("R1", "a@x.com", "p2")` on the resulting store at the same time,
after which the stored password is the digest of `p2`, not of `p1`. -/
theorem resetPassword_reuse_counterexample :
    (resetPassword (sampleModel sampleDigest 10) sampleEnv [alice] "R1" "a@x.com" "p1").promise
      = some (.resolved "Your password has been reset") ∧
    (resetPassword (sampleModel sampleDigest 10) sampleEnv
      (resetPassword (sampleModel sampleDigest 10) sampleEnv [alice] "R1" "a@x.com" "p1").store
      "R1" "a@x.com" "p2").promise = some (.resolved "Your password has been reset") ∧
    (resetPassword (sampleModel sampleDigest 10) sampleEnv
      (resetPassword (sampleModel sampleDigest 10) sampleEnv [alice] "R1" "a@x.com" "p1").store
      "R1" "a@x.com" "p2").store = [{ alice with password := some (sampleDigest "p2") }] ∧
    sampleDigest "p2" ≠ sampleDigest "p1" := by
  decide

/-- C9, amended: in a store with distinct ids, for the account found under
the email. When `validateResetPasswordToken(token)` is false, `resetPassword` is
rejected with status 422 and the store, so the stored password, is unchanged.
When it is true, `resetPassword(token, email, p1)` succeeds and changes only the
password of the account, to the digest of `p1`: the reset token and its expiry
stay. A second `resetPassword(token, email, p2)` on the resulting store is then
decided by `validateResetPasswordToken(token)` on the updated account: rejected
with status 422, the stored password still the digest of `p1`, when it is false;
fulfilled, the stored password the digest of `p2`, when it is true. -/
theorem resetPassword_token_checked (m : UserModel) (env : Env) (store : Store)
    (token email p1 p2 : String) (u : User)
    (hu : UniqueIds store)
    (hf : findByEmail store email = some u) :
    (m.validateResetPasswordToken u token = false →
      resetPassword m env store token email p1
        = { promise := some (.rejected (.status 422 "Reset token is invalid")),
            store := store }) ∧
    (m.validateResetPasswordToken u token = true →
      resetPassword m env store token email p1
        = { promise := some (.resolved "Your password has been reset"),
            store := save { u with password := some (env.sha256hex p1) } store } ∧
      findByEmail (resetPassword m env store token email p1).store email
        = some { u with password := some (env.sha256hex p1) } ∧
      (m.validateResetPasswordToken { u with password := some (env.sha256hex p1) } token = false →
        resetPassword m env (resetPassword m env store token email p1).store token email p2
          = { promise := some (.rejected (.status 422 "Reset token is invalid")),
              store := (resetPassword m env store token email p1).store }) ∧
      (m.validateResetPasswordToken { u with password := some (env.sha256hex p1) } token = true →
        (resetPassword m env (resetPassword m env store token email p1).store token email p2).promise
          = some (.resolved "Your password has been reset") ∧
        findByEmail
          (resetPassword m env (resetPassword m env store token email p1).store token email p2).store
          email = some { u with password := some (env.sha256hex p2) })) := by
  have hue : u.email = email := findByEmail_email hf
  subst hue
  have hi : findById store u._id = some u := findById_of_mem hu (findByEmail_mem hf)
  refine ⟨?_, ?_⟩
  · intro hv
    simp [resetPassword, resetPasswordThen, hf, hv, Exec.reject, Promise.settle]
  · intro hv
    have hr : resetPassword m env store token u.email p1
        = { promise := some (.resolved "Your password has been reset"),
            store := save { u with password := some (env.sha256hex p1) } store } := by
      simp [resetPassword, resetPasswordThen, hf, hv, Exec.resolve, Promise.settle]
    have hf1 : findByEmail (save { u with password := some (env.sha256hex p1) } store) u.email
        = some { u with password := some (env.sha256hex p1) } :=
      @findByEmail_save store u.email u { u with password := some (env.sha256hex p1) } hf hi rfl rfl
    have hi1 : findById (save { u with password := some (env.sha256hex p1) } store) u._id
        = some { u with password := some (env.sha256hex p1) } :=
      @findById_save store { u with password := some (env.sha256hex p1) } u hi
    rw [hr]
    refine ⟨rfl, hf1, ?_, ?_⟩
    · intro hv1
      simp [resetPassword, resetPasswordThen, hf1, hv1, Exec.reject, Promise.settle]
    · intro hv1
      have hr2 : resetPassword m env (save { u with password := some (env.sha256hex p1) } store)
          token u.email p2
          = { promise := some (.resolved "Your password has been reset"),
              store := save { u with password := some (env.sha256hex p2) }
                (save { u with password := some (env.sha256hex p1) } store) } := by
        simp [resetPassword, resetPasswordThen, hf1, hv1, Exec.resolve, Promise.settle]
      rw [hr2]
      refine ⟨rfl, ?_⟩
      have hf2 : findByEmail (save { u with password := some (env.sha256hex p1) } store)
          ({ u with password := some (env.sha256hex p1) } : User).email
          = some { u with password := some (env.sha256hex p1) } := hf1
      exact @findByEmail_save _ _ _ { u with password := some (env.sha256hex p2) } hf2 hi1
        rfl rfl

/-- C9, amended, on the sample store: a wrong token changes nothing. -/
theorem resetPassword_token_checked_witness :
    UniqueIds [alice] ∧ findByEmail [alice] "a@x.com" = some alice ∧
    resetPassword (sampleModel sampleDigest 10) sampleEnv [alice] "R2" "a@x.com" "p1"
      = { promise := some (.rejected (.status 422 "Reset token is invalid")),
          store := [alice] } :=
  ⟨by decide, by decide,
   (resetPassword_token_checked (sampleModel sampleDigest 10) sampleEnv [alice] "R2" "a@x.com"
      "p1" "p2" alice (by decide) (by decide)).1 (by decide)⟩

/-! ## Avatar upload -/

/-- C10: `updateAvatar` for every account id and every original file name. The
stored file name is the id, a dot and the part of the original name after its
last dot (`ext` when the name is `pre.ext` and `ext` has no dot; the whole name
when it has no dot). When the upload of that file succeeds and the account
exists, the promise is fulfilled with the account whose avatar url is `host`,
`:`, `port`, `imageWebPath` and that file name, and that is the document stored
under the id. When the uploader reports an error the promise is rejected with
that error. -/
theorem updateAvatar_contract (env : Env) (userId : Nat) (originalname : String) :
    (∀ pre ext, originalname = pre ++ "." ++ ext → '.' ∉ ext.data →
      storedFileName env userId originalname = env.idString userId ++ "." ++ ext) ∧
    ('.' ∉ originalname.data →
      storedFileName env userId originalname = env.idString userId ++ "." ++ originalname) ∧
    (∀ store aUser, findById store userId = some aUser →
      (updateAvatar env store userId { originalname := some originalname, err := none }).promise
        = some (.resolved { aUser with avatar := { url := (some
            (env.config.host ++ ":" ++ env.config.port ++ env.config.imageWebPath
              ++ storedFileName env userId originalname)) } }) ∧
      findById
        (updateAvatar env store userId { originalname := some originalname, err := none }).store
        userId
        = some { aUser with avatar := { url := (some
            (env.config.host ++ ":" ++ env.config.port ++ env.config.imageWebPath
              ++ storedFileName env userId originalname)) } }) ∧
    (∀ store file err,
      (updateAvatar env store userId { originalname := file, err := some err }).promise
        = some (.rejected err)) := by
  refine ⟨?_, ?_, ?_, ?_⟩
  · intro pre ext hname hext
    rw [hname]
    unfold storedFileName
    rw [lastSegment_append_dot pre ext hext]
  · intro h
    unfold storedFileName
    rw [lastSegment_of_no_dot originalname h]
  · intro store aUser hf
    have hid : aUser._id = userId := findById_id hf
    have hup : updateAvatar env store userId { originalname := some originalname, err := none }
        = { promise := some (.resolved { aUser with avatar := { url := (some
              (env.config.host ++ ":" ++ env.config.port ++ env.config.imageWebPath
                ++ storedFileName env userId originalname)) } }),
            store := save { aUser with avatar := { url := (some
              (env.config.host ++ ":" ++ env.config.port ++ env.config.imageWebPath
                ++ storedFileName env userId originalname)) } } store } := by
      simp [updateAvatar, hf, UploadResult.fileName, avatarUrl, jsString, Exec.resolve,
        Promise.settle]
    rw [hup]
    refine ⟨rfl, ?_⟩
    have hf1 : findById store
        ({ aUser with avatar := { url := (some
            (env.config.host ++ ":" ++ env.config.port ++ env.config.imageWebPath
              ++ storedFileName env userId originalname)) } } : User)._id = some aUser := by
      show findById store aUser._id = some aUser
      rw [hid]; exact hf
    have := findById_save hf1
    simpa [hid] using this
  · intro store file err
    cases hf : findById store userId with
    | none => simp [updateAvatar, hf, Exec.reject, Promise.settle]
    | some aUser => simp [updateAvatar, hf, Exec.reject, Exec.resolve, Promise.settle]

/-- C10 on the sample store: `alice` uploads `me.holiday.png`; an upload that
fails. -/
theorem updateAvatar_contract_witness :
    storedFileName sampleEnv 1 "me.holiday.png" = "1.png" ∧
    (updateAvatar sampleEnv [alice] 1 { originalname := some "me.holiday.png", err := none }).promise
      = some (.resolved { alice with avatar := { url := some "http://localhost:3000/img/1.png" } }) ∧
    (updateAvatar sampleEnv [alice] 1
        { originalname := none, err := some (.other "LIMIT_FILE_SIZE") }).promise
      = some (.rejected (.other "LIMIT_FILE_SIZE")) := by
  have h := updateAvatar_contract sampleEnv 1 "me.holiday.png"
  refine ⟨?_, ?_, h.2.2.2 [alice] none (.other "LIMIT_FILE_SIZE")⟩
  · rw [h.1 "me.holiday" "png" (by decide) (by decide)]; decide
  · rw [(h.2.2.1 [alice] alice (by decide)).1]; decide

end UserService
